import Mathlib

/-!
Verification of the ETL ingestion pipeline (src/ETL_pipeline/ingest_changes.py and
src/ETL_pipeline/ingest_timetables.py): a shallow embedding of the merge/upsert
engines, the delay calculator, the station alias resolver and the per-file
ingestion loops, together with theorems settling the specification's claims.
-/

namespace ETL

/-! ## Fact rows and the natural key

`fact_train_movement` columns that participate in the upserts, as in the column
list of SQL_UPSERT_FACT_CHANGES / SQL_UPSERT_FACT_PLANNED.  The natural key is
(snapshot_time_key, station_key, stop_id, event_type). -/

@[ext]
structure NatKey where
  snapshot_time_key : Nat
  station_key : Nat
  stop_id : Option String
  event_type : String
deriving DecidableEq

@[ext]
structure FactRow where
  train_key : Nat
  planned_time_key : Option Nat
  changed_time_key : Option Nat
  event_status : Option String
  planned_platform : Option String
  changed_platform : Option String
  line : Option String
  planned_path : Option String
  delay_minutes : Option Int
  is_cancelled : Bool
deriving DecidableEq

/-- SQL COALESCE(a, b): the first non-NULL of the two arguments. -/
def coalesce {α : Type} (a b : Option α) : Option α :=
  match a with
  | some x => some x
  | none => b

/-- The DO UPDATE clause of SQL_UPSERT_FACT_CHANGES (ingest_changes.py lines
110-130), merging the incoming row `r` (EXCLUDED) onto the existing row `e`
(fact_train_movement); `unk` is the unknown-train key bound to the extra
parameter of the CASE clause. -/
def mergeChanges (unk : Nat) (e r : FactRow) : FactRow :=
  { train_key := if r.train_key = unk then e.train_key else r.train_key
    planned_time_key := coalesce e.planned_time_key r.planned_time_key
    changed_time_key := coalesce r.changed_time_key e.changed_time_key
    event_status := coalesce r.event_status e.event_status
    planned_platform := coalesce e.planned_platform r.planned_platform
    changed_platform := coalesce r.changed_platform e.changed_platform
    line := coalesce r.line e.line
    planned_path := coalesce r.planned_path e.planned_path
    delay_minutes := coalesce r.delay_minutes e.delay_minutes
    is_cancelled := e.is_cancelled || r.is_cancelled }

/-- Payload of a planned-path upsert: the non-key columns supplied with a
non-NULL parameter in SQL_UPSERT_FACT_PLANNED (ingest_timetables.py 143-159). -/
@[ext]
structure PlannedPayload where
  train_key : Nat
  planned_time_key : Option Nat
  planned_platform : Option String
  line : Option String
  planned_path : Option String
deriving DecidableEq

/-- The VALUES row inserted by SQL_UPSERT_FACT_PLANNED when there is no
conflict: changed_time_key, event_status, changed_platform, delay_minutes are
NULL and is_cancelled is false. -/
def insertPlanned (p : PlannedPayload) : FactRow :=
  { train_key := p.train_key
    planned_time_key := p.planned_time_key
    changed_time_key := none
    event_status := none
    planned_platform := p.planned_platform
    changed_platform := none
    line := p.line
    planned_path := p.planned_path
    delay_minutes := none
    is_cancelled := false }

/-- The DO UPDATE clause of SQL_UPSERT_FACT_PLANNED: the incoming train key
wins outright, the four planned-side fields coalesce incoming-first, every
other column is not listed in the SET clause and stays untouched. -/
def mergePlanned (e : FactRow) (p : PlannedPayload) : FactRow :=
  { e with
    train_key := p.train_key
    planned_time_key := coalesce p.planned_time_key e.planned_time_key
    planned_platform := coalesce p.planned_platform e.planned_platform
    line := coalesce p.line e.line
    planned_path := coalesce p.planned_path e.planned_path }

/-! ## Train identity

ensure_unknown_train (ingest_changes.py 145-150) reserves one dim_train row for
the 5-tuple ("UNK", "UNK", "", "", ""); get_train_key resolves a tl attribute
dict to the dim_train surrogate key of its descriptor tuple. -/

@[ext]
structure TrainTuple where
  category : String
  train_number : String
  owner : String
  trip_type : String
  filter_flags : String
deriving DecidableEq

/-- The descriptor of the shared unknown-train row created by
ensure_unknown_train: ("UNK", "UNK", "", "", ""). -/
def unknownTrainTuple : TrainTuple :=
  { category := "UNK", train_number := "UNK", owner := "", trip_type := "", filter_flags := "" }

/-- Python attribute-dict lookup with an or-default: tl.get(k) or d.  The
default also replaces an empty string, since "" is falsy. -/
def pyGetOr (tl : List (String × String)) (k d : String) : String :=
  match (tl.find? (fun kv => kv.1 == k)).map (fun kv => kv.2) with
  | some s => if s = "" then d else s
  | none => d

/-- The 5-tuple built by get_train_key (both pipelines build the same tuple):
(tl.get("c") or "UNK", tl.get("n") or "UNK", tl.get("o") or "",
 tl.get("t") or "", tl.get("f") or ""). -/
def trainTupleOfTL (tl : List (String × String)) : TrainTuple :=
  { category := pyGetOr tl "c" "UNK"
    train_number := pyGetOr tl "n" "UNK"
    owner := pyGetOr tl "o" ""
    trip_type := pyGetOr tl "t" ""
    filter_flags := pyGetOr tl "f" "" }

/-- get_train_key of ingest_changes.py: an absent or empty tl dict short-cuts
to the unknown-train key; otherwise the descriptor tuple is resolved through
dim_train, modelled by the surrogate-key assignment `tko`. -/
def changeTrainKey (tko : TrainTuple → Nat) (tl : List (String × String)) : Nat :=
  if tl.isEmpty then tko unknownTrainTuple else tko (trainTupleOfTL tl)

/-- get_train_key of ingest_timetables.py: no early return, the tuple (with
"UNK"/"" sentinels for missing subfields) is always resolved through
dim_train. -/
def plannedTrainKey (tko : TrainTuple → Nat) (tl : List (String × String)) : Nat :=
  tko (trainTupleOfTL tl)

/-! ## Merge-sequence machinery for the monotonicity claim -/

/-- One merge applied to an existing fact row by either ingestion path. -/
inductive MergeStep where
  | change (r : FactRow)
  | planned (p : PlannedPayload)

def applyMergeStep (unk : Nat) (e : FactRow) : MergeStep → FactRow
  | .change r => mergeChanges unk e r
  | .planned p => mergePlanned e p

def applyMergeSteps (unk : Nat) (e : FactRow) (steps : List MergeStep) : FactRow :=
  steps.foldl (applyMergeStep unk) e

/-! ## Claims about the merge engines -/

/-- C1 counterexample: with unknown key 0, an existing row holding the resolved
train key 1 and an incoming record holding the different resolved train key 2,
the change-path merge sets the train key to the incoming key 2 — the claim
demands that the existing resolved key 1 be kept. -/
theorem train_key_change_rule_counterexample :
    (mergeChanges 0
      { train_key := 1, planned_time_key := none, changed_time_key := none,
        event_status := none, planned_platform := none, changed_platform := none,
        line := none, planned_path := none, delay_minutes := none, is_cancelled := false }
      { train_key := 2, planned_time_key := none, changed_time_key := none,
        event_status := none, planned_platform := none, changed_platform := none,
        line := none, planned_path := none, delay_minutes := none, is_cancelled := false }).train_key
      = 2 ∧ (2 : Nat) ≠ 1 ∧ (1 : Nat) ≠ 0 ∧ (2 : Nat) ≠ 0 := by
  refine ⟨rfl, by decide, by decide, by decide⟩

/-- C1 (amended): on the change path the merged train key equals the incoming
train key unless the incoming key is the unknown placeholder, in which case the
existing key is kept; in particular an incoming resolved key always wins, even
over a different already-resolved existing key, and an incoming unknown key
never replaces anything. -/
theorem train_key_change_rule (unk : Nat) (e r : FactRow) :
    (mergeChanges unk e r).train_key =
      if r.train_key = unk then e.train_key else r.train_key := rfl

/-- C6: merging an incoming change-path record carrying the unknown-train
placeholder onto an existing row that carries a resolved, non-unknown train key
leaves the train key unchanged. -/
theorem unknown_identity_protection (unk : Nat) (e r : FactRow)
    (hr : r.train_key = unk) (he : e.train_key ≠ unk) :
    (mergeChanges unk e r).train_key = e.train_key := by
  simp [mergeChanges, hr]

theorem unknown_identity_protection_witness :
    (mergeChanges 0
      { train_key := 7, planned_time_key := none, changed_time_key := none,
        event_status := none, planned_platform := none, changed_platform := none,
        line := none, planned_path := none, delay_minutes := none, is_cancelled := false }
      { train_key := 0, planned_time_key := none, changed_time_key := none,
        event_status := none, planned_platform := none, changed_platform := none,
        line := none, planned_path := none, delay_minutes := none, is_cancelled := true }).train_key
      = 7 :=
  unknown_identity_protection 0 _ _ rfl (by decide)

/-- C9: a planned-path merge onto an existing fact row leaves changed_time_key,
changed_platform, event_status, delay_minutes and is_cancelled of the existing
row unchanged — the planned variant updates only the train key and the
planned-side fields. -/
theorem planned_merge_frame (e : FactRow) (p : PlannedPayload) :
    (mergePlanned e p).changed_time_key = e.changed_time_key ∧
    (mergePlanned e p).changed_platform = e.changed_platform ∧
    (mergePlanned e p).event_status = e.event_status ∧
    (mergePlanned e p).delay_minutes = e.delay_minutes ∧
    (mergePlanned e p).is_cancelled = e.is_cancelled :=
  ⟨rfl, rfl, rfl, rfl, rfl⟩

/-- C10: a planned-path stop with no train descriptor resolves to the tuple
("UNK", "UNK", "", "", "") — the very descriptor the change path reserves as the
unknown train — and since the planned merge takes the incoming train key
unconditionally, merging such a stop onto a row carrying a resolved,
non-unknown key replaces that key with the unknown-train key. -/
theorem planned_unknown_train_clobbers (tko : TrainTuple → Nat) (e : FactRow)
    (p : PlannedPayload) (hp : p.train_key = plannedTrainKey tko [])
    (he : e.train_key ≠ tko unknownTrainTuple) :
    trainTupleOfTL [] = unknownTrainTuple ∧
    (mergePlanned e p).train_key = tko unknownTrainTuple ∧
    (mergePlanned e p).train_key ≠ e.train_key := by
  refine ⟨rfl, ?_, ?_⟩
  · rw [show (mergePlanned e p).train_key = p.train_key from rfl, hp]; rfl
  · rw [show (mergePlanned e p).train_key = p.train_key from rfl, hp]
    exact fun h => he h.symm

theorem planned_unknown_train_clobbers_witness :
    (mergePlanned
      { train_key := 7, planned_time_key := none, changed_time_key := none,
        event_status := none, planned_platform := none, changed_platform := none,
        line := none, planned_path := none, delay_minutes := none, is_cancelled := false }
      { train_key := 0, planned_time_key := some 202509021000, planned_platform := none,
        line := none, planned_path := none }).train_key = 0 ∧
    trainTupleOfTL [] = unknownTrainTuple :=
  have h := planned_unknown_train_clobbers
    (fun t => if t = unknownTrainTuple then 0 else 1)
    { train_key := 7, planned_time_key := none, changed_time_key := none,
      event_status := none, planned_platform := none, changed_platform := none,
      line := none, planned_path := none, delay_minutes := none, is_cancelled := false }
    { train_key := 0, planned_time_key := some 202509021000, planned_platform := none,
      line := none, planned_path := none }
    (by decide) (by decide)
  ⟨h.2.1.trans (by decide), h.1⟩

/-- C3: once a merged state of a fact row has is_cancelled = true, every state
reached by further change-path or planned-path merges also has
is_cancelled = true; on the change path the flag is the logical OR of the
existing and the incoming flag, and a planned-path merge leaves it unchanged. -/
theorem cancellation_monotone (unk : Nat) :
    (∀ e r : FactRow, (mergeChanges unk e r).is_cancelled = (e.is_cancelled || r.is_cancelled)) ∧
    (∀ (e : FactRow) (p : PlannedPayload), (mergePlanned e p).is_cancelled = e.is_cancelled) ∧
    (∀ (e : FactRow) (steps : List MergeStep), e.is_cancelled = true →
      (applyMergeSteps unk e steps).is_cancelled = true) := by
  refine ⟨fun e r => rfl, fun e p => rfl, fun e steps => ?_⟩
  induction steps generalizing e with
  | nil => exact fun h => h
  | cons s steps ih =>
    intro h
    apply ih
    cases s with
    | change r => simp [applyMergeStep, mergeChanges, h]
    | planned p => simp [applyMergeStep, mergePlanned, h]

/-! ## Idempotence of snapshot re-application

The store is modelled as a partial map from the natural key to the stored fact
row; one INSERT ... ON CONFLICT statement either inserts the incoming payload or
merges it onto the existing row at its key. -/

@[simp] theorem coalesce_self {α : Type} (a : Option α) : coalesce a a = a := by
  cases a <;> rfl

@[simp] theorem coalesce_none_right {α : Type} (a : Option α) : coalesce a none = a := by
  cases a <;> rfl

@[simp] theorem coalesce_none_left {α : Type} (a : Option α) : coalesce none a = a := rfl

theorem coalesce_assoc {α : Type} (a b c : Option α) :
    coalesce (coalesce a b) c = coalesce a (coalesce b c) := by
  cases a <;> rfl

@[simp] theorem coalesce_left_absorb {α : Type} (a b : Option α) :
    coalesce a (coalesce a b) = coalesce a b := by
  cases a <;> rfl

@[simp] theorem coalesce_right_absorb {α : Type} (a b : Option α) :
    coalesce (coalesce a b) b = coalesce a b := by
  cases a <;> cases b <;> rfl

/-- Projecting a fold over rows to a fold over one field. -/
theorem foldl_field {σ τ β : Type} (g : σ → β → σ) (φ : σ → τ) (u : τ → β → τ)
    (h : ∀ s b, φ (g s b) = u (φ s) b) (M : List β) :
    ∀ s : σ, φ (M.foldl g s) = M.foldl u (φ s) := by
  induction M with
  | nil => exact fun s => rfl
  | cons b M ih => exact fun s => by rw [List.foldl_cons, List.foldl_cons, ih, h]

/-- A fold whose every step is either the identity or a constant function is
itself either a constant function or the identity. -/
theorem foldl_const_or_id {α β : Type} (f : α → β → α)
    (hf : ∀ b, (∀ a, f a b = a) ∨ (∀ a a', f a b = f a' b)) (M : List β) :
    (∀ x y, M.foldl f x = M.foldl f y) ∨ (∀ x, M.foldl f x = x) := by
  induction M with
  | nil => exact Or.inr fun x => rfl
  | cons b M ih =>
    rcases ih with hc | hid
    · exact Or.inl fun x y => by rw [List.foldl_cons, List.foldl_cons]; exact hc _ _
    · rcases hf b with hb | hb
      · exact Or.inr fun x => by rw [List.foldl_cons, hid, hb]
      · exact Or.inl fun x y => by rw [List.foldl_cons, List.foldl_cons, hid, hid]; exact hb x y

/-- Re-entering a const-or-id fold at an already-folded value through a step it
fixes changes nothing. -/
theorem foldl_restart {α β : Type} (f : α → β → α)
    (hf : ∀ b, (∀ a, f a b = a) ∨ (∀ a a', f a b = f a' b)) (M : List β) (b : β) (x : α)
    (hx : f x b = x) :
    M.foldl f (f (M.foldl f x) b) = M.foldl f x := by
  rcases foldl_const_or_id f hf M with hc | hid
  · exact hc _ _
  · simp only [hid, hx]

/-- Closed form of a keep-existing coalescing fold: the start value wins,
otherwise the first value the list supplies. -/
theorem foldl_coalesce_closed {α β : Type} (v : β → Option α) (M : List β) (x : Option α) :
    M.foldl (fun a c => coalesce a (v c)) x
      = coalesce x (M.foldl (fun a c => coalesce a (v c)) none) := by
  induction M generalizing x with
  | nil => exact (coalesce_none_right x).symm
  | cons b M ih =>
    rw [List.foldl_cons, List.foldl_cons, ih (coalesce x (v b)), ih (coalesce none (v b))]
    exact coalesce_assoc x (v b) (M.foldl (fun a c => coalesce a (v c)) none)

theorem foldl_coalesce_restart {α β : Type} (v : β → Option α) (M : List β) (b : β)
    (x : Option α) (hx : coalesce x (v b) = x) :
    M.foldl (fun a c => coalesce a (v c))
        (coalesce (M.foldl (fun a c => coalesce a (v c)) x) (v b))
      = M.foldl (fun a c => coalesce a (v c)) x := by
  rw [foldl_coalesce_closed v M (coalesce (M.foldl (fun a c => coalesce a (v c)) x) (v b)),
    foldl_coalesce_closed v M x]
  cases x with
  | some a => rfl
  | none =>
    have hb : v b = none := hx
    simp [hb]

/-! Per-field step shapes of the two merge engines. -/

/-- The train-key CASE of the change-path upsert, as a fold step. -/
def tkStep (unk : Nat) (t : Nat) (r : FactRow) : Nat :=
  if r.train_key = unk then t else r.train_key

theorem tkStep_cid (unk : Nat) :
    ∀ r : FactRow, (∀ t, tkStep unk t r = t) ∨ (∀ t t', tkStep unk t r = tkStep unk t' r) := by
  intro r
  by_cases h : r.train_key = unk
  · exact Or.inl fun t => by simp [tkStep, h]
  · exact Or.inr fun t t' => by simp [tkStep, h]

/-- A prefer-incoming COALESCE column, as a fold step. -/
def takeStep {γ α : Type} (v : γ → Option α) (a : Option α) (r : γ) : Option α :=
  coalesce (v r) a

theorem takeStep_cid {γ α : Type} (v : γ → Option α) :
    ∀ r, (∀ a, takeStep v a r = a) ∨ (∀ a a', takeStep v a r = takeStep v a' r) := by
  intro r
  cases h : v r with
  | none => exact Or.inl fun a => by simp [takeStep, h]
  | some y => exact Or.inr fun a a' => by simp [takeStep, h, coalesce]

/-- A column the SET clause assigns unconditionally from the incoming record. -/
def constStep {γ α : Type} (v : γ → α) (a : α) (r : γ) : α := v r

theorem constStep_cid {γ α : Type} (v : γ → α) :
    ∀ r : γ, (∀ a, constStep v a r = a) ∨ (∀ a a', constStep v a r = constStep v a' r) :=
  fun r => Or.inr fun a a' => rfl

/-- A column the SET clause does not mention. -/
def skipStep {γ α : Type} (a : α) (r : γ) : α := a

theorem skipStep_cid {γ α : Type} :
    ∀ r : γ, (∀ a : α, skipStep a r = a) ∨ (∀ a a' : α, skipStep a r = skipStep a' r) :=
  fun r => Or.inl fun a => rfl

/-- The is_cancelled OR of the change-path upsert, as a fold step. -/
def orStep (b : Bool) (r : FactRow) : Bool := b || r.is_cancelled

theorem orStep_cid :
    ∀ r : FactRow, (∀ b, orStep b r = b) ∨ (∀ b b', orStep b r = orStep b' r) := by
  intro r
  cases h : r.is_cancelled with
  | false => exact Or.inl fun b => by simp [orStep, h]
  | true => exact Or.inr fun b b' => by simp [orStep, h]

/-- The fact store: one optional row per natural key. -/
abbrev Store := NatKey → Option FactRow

section Engine

variable {P : Type} (ins : P → FactRow) (mrg : FactRow → P → FactRow)

/-- One INSERT ... ON CONFLICT DO UPDATE applied to the row stored at the
record's natural key: insert the incoming payload when the key is free,
otherwise merge it onto the existing row. -/
def upsertRow (o : Option FactRow) (p : P) : Option FactRow :=
  some (match o with | none => ins p | some e => mrg e p)

/-- One upsert statement applied to the store. -/
def upsertRecord (σ : Store) (rec : NatKey × P) : Store :=
  fun k => if k = rec.1 then upsertRow ins mrg (σ rec.1) rec.2 else σ k

/-- An execute_batch over a list of records, in list order. -/
def applyRecords (σ : Store) (L : List (NatKey × P)) : Store :=
  L.foldl (upsertRecord ins mrg) σ

/-- The single-key trace of a batch: the upserts hitting one row. -/
def applyRowList (o : Option FactRow) (M : List P) : Option FactRow :=
  M.foldl (upsertRow ins mrg) o

theorem applyRecords_apply (σ : Store) (L : List (NatKey × P)) (k : NatKey) :
    applyRecords ins mrg σ L k
      = applyRowList ins mrg (σ k) ((L.filter (fun rec => rec.1 == k)).map Prod.snd) := by
  induction L generalizing σ with
  | nil => rfl
  | cons rec L ih =>
    rw [show applyRecords ins mrg σ (rec :: L)
          = applyRecords ins mrg (upsertRecord ins mrg σ rec) L from rfl, ih]
    by_cases h : rec.1 = k
    · simp [List.filter_cons, upsertRecord, applyRowList, h]
    · have h' : ¬ (k = rec.1) := fun hh => h hh.symm
      simp [List.filter_cons, upsertRecord, beq_iff_eq, h, h']

theorem applyRowList_some (e : FactRow) (M : List P) :
    applyRowList ins mrg (some e) M = some (M.foldl mrg e) := by
  induction M generalizing e with
  | nil => rfl
  | cons p M ih =>
    rw [show applyRowList ins mrg (some e) (p :: M)
          = applyRowList ins mrg (some (mrg e p)) M from rfl, ih, List.foldl_cons]

theorem applyRowList_twice
    (hins : ∀ p, mrg (ins p) p = ins p)
    (hidem : ∀ e p, mrg (mrg e p) p = mrg e p)
    (hrestart : ∀ (x : FactRow) (p : P) (M : List P), mrg x p = x →
      M.foldl mrg (mrg (M.foldl mrg x) p) = M.foldl mrg x)
    (o : Option FactRow) (M : List P) :
    applyRowList ins mrg (applyRowList ins mrg o M) M = applyRowList ins mrg o M := by
  cases M with
  | nil => rfl
  | cons p M =>
    have key : ∀ e₀ : FactRow, mrg e₀ p = e₀ →
        applyRowList ins mrg (applyRowList ins mrg (some e₀) M) (p :: M)
          = applyRowList ins mrg (some e₀) M := by
      intro e₀ h0
      rw [applyRowList_some ins mrg e₀ M]
      rw [show applyRowList ins mrg (some (M.foldl mrg e₀)) (p :: M)
            = applyRowList ins mrg (some (mrg (M.foldl mrg e₀) p)) M from rfl]
      rw [applyRowList_some, hrestart e₀ p M h0]
    cases o with
    | none =>
      rw [show applyRowList ins mrg none (p :: M)
            = applyRowList ins mrg (some (ins p)) M from rfl]
      exact key (ins p) (hins p)
    | some e =>
      rw [show applyRowList ins mrg (some e) (p :: M)
            = applyRowList ins mrg (some (mrg e p)) M from rfl]
      exact key (mrg e p) (hidem e p)

theorem applyRecords_twice
    (hins : ∀ p, mrg (ins p) p = ins p)
    (hidem : ∀ e p, mrg (mrg e p) p = mrg e p)
    (hrestart : ∀ (x : FactRow) (p : P) (M : List P), mrg x p = x →
      M.foldl mrg (mrg (M.foldl mrg x) p) = M.foldl mrg x)
    (σ : Store) (L : List (NatKey × P)) :
    applyRecords ins mrg (applyRecords ins mrg σ L) L = applyRecords ins mrg σ L := by
  funext k
  rw [applyRecords_apply, applyRecords_apply]
  exact applyRowList_twice ins mrg hins hidem hrestart _ _

end Engine

/-- One merge-fixpoint re-entry step, projected to a const-or-id column. -/
theorem restart_field {P τ : Type} (mrg : FactRow → P → FactRow)
    (φ : FactRow → τ) (u : τ → P → τ)
    (hproj : ∀ s b, φ (mrg s b) = u (φ s) b)
    (hcid : ∀ b, (∀ a, u a b = a) ∨ (∀ a a', u a b = u a' b))
    (x : FactRow) (r : P) (M : List P) (hx : mrg x r = x) :
    φ (M.foldl mrg (mrg (M.foldl mrg x) r)) = φ (M.foldl mrg x) := by
  rw [foldl_field mrg φ u hproj M, hproj, foldl_field mrg φ u hproj M]
  exact foldl_restart u hcid M r (φ x) ((hproj x r).symm.trans (congrArg φ hx))

/-- One merge-fixpoint re-entry step, projected to a keep-existing column. -/
theorem restart_field_coalesce {P α : Type} (mrg : FactRow → P → FactRow)
    (φ : FactRow → Option α) (v : P → Option α)
    (hproj : ∀ s b, φ (mrg s b) = coalesce (φ s) (v b))
    (x : FactRow) (r : P) (M : List P) (hx : mrg x r = x) :
    φ (M.foldl mrg (mrg (M.foldl mrg x) r)) = φ (M.foldl mrg x) := by
  rw [foldl_field mrg φ (fun a c => coalesce a (v c)) hproj M, hproj,
    foldl_field mrg φ (fun a c => coalesce a (v c)) hproj M]
  exact foldl_coalesce_restart v M r (φ x) ((hproj x r).symm.trans (congrArg φ hx))

theorem mergeChanges_self (unk : Nat) (r : FactRow) : mergeChanges unk r r = r := by
  refine FactRow.ext ?_ ?_ ?_ ?_ ?_ ?_ ?_ ?_ ?_ ?_ <;> simp [mergeChanges]

theorem mergeChanges_idem (unk : Nat) (e r : FactRow) :
    mergeChanges unk (mergeChanges unk e r) r = mergeChanges unk e r := by
  refine FactRow.ext ?_ ?_ ?_ ?_ ?_ ?_ ?_ ?_ ?_ ?_
  · by_cases h : r.train_key = unk <;> simp [mergeChanges, h]
  all_goals simp [mergeChanges, Bool.or_assoc]

theorem mergeChanges_restart (unk : Nat) (x r : FactRow) (M : List FactRow)
    (hx : mergeChanges unk x r = x) :
    M.foldl (mergeChanges unk) (mergeChanges unk (M.foldl (mergeChanges unk) x) r)
      = M.foldl (mergeChanges unk) x := by
  refine FactRow.ext ?_ ?_ ?_ ?_ ?_ ?_ ?_ ?_ ?_ ?_
  · exact restart_field (mergeChanges unk) (fun s => s.train_key) (tkStep unk)
      (fun s b => rfl) (tkStep_cid unk) x r M hx
  · exact restart_field_coalesce (mergeChanges unk) (fun s => s.planned_time_key)
      (fun b => b.planned_time_key) (fun s b => rfl) x r M hx
  · exact restart_field (mergeChanges unk) (fun s => s.changed_time_key)
      (takeStep fun b => b.changed_time_key) (fun s b => rfl)
      (takeStep_cid _) x r M hx
  · exact restart_field (mergeChanges unk) (fun s => s.event_status)
      (takeStep fun b => b.event_status) (fun s b => rfl) (takeStep_cid _) x r M hx
  · exact restart_field_coalesce (mergeChanges unk) (fun s => s.planned_platform)
      (fun b => b.planned_platform) (fun s b => rfl) x r M hx
  · exact restart_field (mergeChanges unk) (fun s => s.changed_platform)
      (takeStep fun b => b.changed_platform) (fun s b => rfl) (takeStep_cid _) x r M hx
  · exact restart_field (mergeChanges unk) (fun s => s.line)
      (takeStep fun b => b.line) (fun s b => rfl) (takeStep_cid _) x r M hx
  · exact restart_field (mergeChanges unk) (fun s => s.planned_path)
      (takeStep fun b => b.planned_path) (fun s b => rfl) (takeStep_cid _) x r M hx
  · exact restart_field (mergeChanges unk) (fun s => s.delay_minutes)
      (takeStep fun b => b.delay_minutes) (fun s b => rfl) (takeStep_cid _) x r M hx
  · exact restart_field (mergeChanges unk) (fun s => s.is_cancelled)
      orStep (fun s b => rfl) orStep_cid x r M hx

theorem mergePlanned_self (p : PlannedPayload) :
    mergePlanned (insertPlanned p) p = insertPlanned p := by
  refine FactRow.ext ?_ ?_ ?_ ?_ ?_ ?_ ?_ ?_ ?_ ?_ <;> simp [mergePlanned, insertPlanned]

theorem mergePlanned_idem (e : FactRow) (p : PlannedPayload) :
    mergePlanned (mergePlanned e p) p = mergePlanned e p := by
  refine FactRow.ext ?_ ?_ ?_ ?_ ?_ ?_ ?_ ?_ ?_ ?_ <;> simp [mergePlanned]

theorem mergePlanned_restart (x : FactRow) (p : PlannedPayload) (M : List PlannedPayload)
    (hx : mergePlanned x p = x) :
    M.foldl mergePlanned (mergePlanned (M.foldl mergePlanned x) p)
      = M.foldl mergePlanned x := by
  refine FactRow.ext ?_ ?_ ?_ ?_ ?_ ?_ ?_ ?_ ?_ ?_
  · exact restart_field mergePlanned (fun s => s.train_key)
      (constStep fun q : PlannedPayload => q.train_key) (fun s b => rfl)
      (constStep_cid _) x p M hx
  · exact restart_field mergePlanned (fun s => s.planned_time_key)
      (takeStep fun q : PlannedPayload => q.planned_time_key) (fun s b => rfl)
      (takeStep_cid _) x p M hx
  · exact restart_field mergePlanned (fun s => s.changed_time_key)
      skipStep (fun s b => rfl) skipStep_cid x p M hx
  · exact restart_field mergePlanned (fun s => s.event_status)
      skipStep (fun s b => rfl) skipStep_cid x p M hx
  · exact restart_field mergePlanned (fun s => s.planned_platform)
      (takeStep fun q : PlannedPayload => q.planned_platform) (fun s b => rfl)
      (takeStep_cid _) x p M hx
  · exact restart_field mergePlanned (fun s => s.changed_platform)
      skipStep (fun s b => rfl) skipStep_cid x p M hx
  · exact restart_field mergePlanned (fun s => s.line)
      (takeStep fun q : PlannedPayload => q.line) (fun s b => rfl)
      (takeStep_cid _) x p M hx
  · exact restart_field mergePlanned (fun s => s.planned_path)
      (takeStep fun q : PlannedPayload => q.planned_path) (fun s b => rfl)
      (takeStep_cid _) x p M hx
  · exact restart_field mergePlanned (fun s => s.delay_minutes)
      skipStep (fun s b => rfl) skipStep_cid x p M hx
  · exact restart_field mergePlanned (fun s => s.is_cancelled)
      skipStep (fun s b => rfl) skipStep_cid x p M hx

/-- execute_batch of SQL_UPSERT_FACT_CHANGES over a list of change records in
list order; on a fresh natural key the incoming row is inserted as-is. -/
def applyChangeSet (unk : Nat) (σ : Store) (L : List (NatKey × FactRow)) : Store :=
  applyRecords (fun r => r) (mergeChanges unk) σ L

/-- execute_batch of SQL_UPSERT_FACT_PLANNED over a list of planned records. -/
def applyPlannedSet (σ : Store) (L : List (NatKey × PlannedPayload)) : Store :=
  applyRecords insertPlanned mergePlanned σ L

/-- C2: applying a snapshot's event set to the store twice, in the same order,
yields a store identical to applying it once, for both the change-path and the
planned-path merge engines; in particular re-upserting a single already-applied
record leaves its fact row unchanged. -/
theorem snapshot_reapplication_idempotent :
    (∀ (unk : Nat) (σ : Store) (L : List (NatKey × FactRow)),
      applyChangeSet unk (applyChangeSet unk σ L) L = applyChangeSet unk σ L) ∧
    (∀ (σ : Store) (L : List (NatKey × PlannedPayload)),
      applyPlannedSet (applyPlannedSet σ L) L = applyPlannedSet σ L) ∧
    (∀ (unk : Nat) (σ : Store) (rec : NatKey × FactRow),
      applyChangeSet unk (applyChangeSet unk σ [rec]) [rec] = applyChangeSet unk σ [rec]) ∧
    (∀ (σ : Store) (rec : NatKey × PlannedPayload),
      applyPlannedSet (applyPlannedSet σ [rec]) [rec] = applyPlannedSet σ [rec]) := by
  have hc : ∀ (unk : Nat) (σ : Store) (L : List (NatKey × FactRow)),
      applyChangeSet unk (applyChangeSet unk σ L) L = applyChangeSet unk σ L :=
    fun unk σ L => applyRecords_twice (fun r => r) (mergeChanges unk)
      (fun p => mergeChanges_self unk p) (mergeChanges_idem unk)
      (fun x p M hx => mergeChanges_restart unk x p M hx) σ L
  have hp : ∀ (σ : Store) (L : List (NatKey × PlannedPayload)),
      applyPlannedSet (applyPlannedSet σ L) L = applyPlannedSet σ L :=
    fun σ L => applyRecords_twice insertPlanned mergePlanned
      mergePlanned_self mergePlanned_idem
      (fun x p M hx => mergePlanned_restart x p M hx) σ L
  exact ⟨hc, hp, fun unk σ rec => hc unk σ [rec], fun σ rec => hp σ [rec]⟩

theorem cancellation_monotone_witness :
    (applyMergeSteps 0
      { train_key := 1, planned_time_key := none, changed_time_key := none,
        event_status := none, planned_platform := none, changed_platform := none,
        line := none, planned_path := none, delay_minutes := none, is_cancelled := true }
      [MergeStep.change
        { train_key := 2, planned_time_key := none, changed_time_key := none,
          event_status := none, planned_platform := none, changed_platform := none,
          line := none, planned_path := none, delay_minutes := none, is_cancelled := false },
       MergeStep.planned
        { train_key := 3, planned_time_key := some 202509021000, planned_platform := some "4",
          line := none, planned_path := none }]).is_cancelled = true :=
  (cancellation_monotone 0).2.2 _ _ rfl

/-! ## Delay Calculator (ingest_changes.py, compute_delay_minutes)

Fallible Python code is embedded in Except: `.error ()` marks a ValueError
escaping the function (compute_delay_minutes is called outside any try block,
so such an error aborts the ingestion run). -/

/-- Python str.isdigit on ASCII digit strings: nonempty and all digits. -/
def pyIsDigit (s : String) : Bool :=
  !s.toList.isEmpty && s.toList.all (fun c => c.isDigit)

/-- Python s.lstrip("-"): drop every leading "-". -/
def lstripDashes (s : String) : String := ⟨s.toList.dropWhile (fun c => c = '-')⟩

/-- Decimal value of a digit string. -/
def digitsToNat (cs : List Char) : Nat :=
  cs.foldl (fun acc c => acc * 10 + (c.toNat - 48)) 0

/-- Python int(s) for strings shaped like an optional "-" followed by digits:
on the strings the delay guard lets through (zero or more leading "-" followed
by digits) this agrees exactly with int(), succeeding iff at most one leading
"-" is present. -/
def pyInt (s : String) : Option Int :=
  match s.toList with
  | '-' :: rest =>
    if !rest.isEmpty && rest.all (fun c => c.isDigit)
    then some (-(digitsToNat rest : Int)) else none
  | cs =>
    if !cs.isEmpty && cs.all (fun c => c.isDigit)
    then some ((digitsToNat cs : Int)) else none

/-- Proleptic-Gregorian leap-year rule, as Python's datetime uses. -/
def isLeapYear (y : Nat) : Bool := (y % 4 == 0 && y % 100 != 0) || (y % 400 == 0)

def daysInMonth (y m : Nat) : Nat :=
  if m = 2 then (if isLeapYear y then 29 else 28)
  else if m = 4 || m = 6 || m = 9 || m = 11 then 30
  else 31

/-- Days contributed by the full months of year y strictly before month m. -/
def daysBeforeMonth (y : Nat) : Nat → Nat
  | 0 => 0
  | m + 1 => if m = 0 then 0 else daysBeforeMonth y m + daysInMonth y m

/-- Number of leap years in [1, y]. -/
def leapsThrough (y : Nat) : Nat := y / 4 - y / 100 + y / 400

def keyYear (k : Nat) : Nat := k / 100000000
def keyMonth (k : Nat) : Nat := k / 1000000 % 100
def keyDay (k : Nat) : Nat := k / 10000 % 100
def keyHour (k : Nat) : Nat := k / 100 % 100
def keyMinute (k : Nat) : Nat := k % 100

/-- str(k) parses under strptime("%Y%m%d%H%M") into a valid datetime: twelve
digits carrying a valid proleptic-Gregorian field combination. -/
def validTimeKey (k : Nat) : Bool :=
  decide (100000000000 ≤ k ∧ k ≤ 999999999999 ∧
    1 ≤ keyMonth k ∧ keyMonth k ≤ 12 ∧
    1 ≤ keyDay k ∧ keyDay k ≤ daysInMonth (keyYear k) (keyMonth k) ∧
    keyHour k ≤ 23 ∧ keyMinute k ≤ 59)

/-- Absolute minute index of a time key: minutes since proleptic Gregorian
0001-01-01 00:00, the ordering datetime subtraction computes with. -/
def keyMinutes (k : Nat) : Nat :=
  ((keyYear k - 1) * 365 + leapsThrough (keyYear k - 1)
      + daysBeforeMonth (keyYear k) (keyMonth k) + (keyDay k - 1)) * 1440
    + keyHour k * 60 + keyMinute k

/-- (ct_dt - pt_dt).total_seconds() / 60.0 for two minute-resolution
datetimes is an exact whole number, so int(round(...)) is just the signed
minute difference. -/
def keyDiffMinutes (pt ct : Nat) : Int := (keyMinutes ct : Int) - (keyMinutes pt : Int)

/-- Python truthiness of the optional int time keys: None and 0 are falsy. -/
def truthyKey : Option Nat → Bool
  | none => false
  | some n => n != 0

/-- Python truthiness of an optional string: None and "" are falsy. -/
def pyTruthy (o : Option String) : Bool :=
  match o with
  | none => false
  | some s => !s.toList.isEmpty

/-- The guard `dc and dc.lstrip("-").isdigit()` of compute_delay_minutes. -/
def dcGuard (dc : Option String) : Bool :=
  pyTruthy dc && pyIsDigit (lstripDashes (dc.getD ""))

/-- compute_delay_minutes of ingest_changes.py (lines 48-58).  `.error ()`
marks a ValueError: int() on a guard-passing string with two or more leading
"-", or strptime on a key that is not a valid 12-digit %Y%m%d%H%M timestamp. -/
def compute_delay_minutes (pt_key ct_key : Option Nat) (dc : Option String) :
    Except Unit (Option Int) :=
  if dcGuard dc then
    match pyInt (dc.getD "") with
    | some v => .ok (some v)
    | none => .error ()
  else if !truthyKey pt_key || !truthyKey ct_key then .ok none
  else match pt_key, ct_key with
    | some p, some c =>
      if validTimeKey p && validTimeKey c then .ok (some (keyDiffMinutes p c))
      else .error ()
    | _, _ => .ok none

/-- C4 counterexample: with both time keys present, the delta string "--5" is
not a valid (optionally negative) integer, so the claim demands the fallback
12-minute difference; the code instead passes its digit guard (lstrip("-")
strips every leading minus) and int("--5") raises ValueError, aborting. -/
theorem delay_priority_counterexample :
    compute_delay_minutes (some 202509021000) (some 202509021012) (some "--5")
      = .error () ∧
    (Except.error () : Except Unit (Option Int)) ≠ .ok (some 12) :=
  ⟨rfl, fun h => Except.noConfusion h⟩

/-- C4 (amended): the explicit delta wins whenever it passes the digit guard
and has at most one leading "-" (then it is returned as int(dc)); a
guard-passing delta with two or more leading minus signs raises instead of
falling back; otherwise, with both time keys present and valid, the delay is
the signed minute difference changed - planned; otherwise the delay is
absent.  The claim's two concrete instances hold as stated. -/
theorem delay_priority_amended :
    (∀ (pt ct : Option Nat) (s : String) (v : Int), dcGuard (some s) = true →
      pyInt s = some v → compute_delay_minutes pt ct (some s) = .ok (some v)) ∧
    (∀ (pt ct : Option Nat) (s : String), dcGuard (some s) = true →
      pyInt s = none → compute_delay_minutes pt ct (some s) = .error ()) ∧
    (∀ (p c : Nat) (dc : Option String), dcGuard dc = false →
      validTimeKey p = true → validTimeKey c = true →
      compute_delay_minutes (some p) (some c) dc = .ok (some (keyDiffMinutes p c))) ∧
    (∀ (pt ct : Option Nat) (dc : Option String), dcGuard dc = false →
      truthyKey pt = false ∨ truthyKey ct = false →
      compute_delay_minutes pt ct dc = .ok none) ∧
    compute_delay_minutes (some 202509021000) (some 202509021012) (some "5")
      = .ok (some 5) ∧
    compute_delay_minutes (some 202509021000) (some 202509021012) none
      = .ok (some 12) := by
  refine ⟨?_, ?_, ?_, ?_, rfl, rfl⟩
  · intro pt ct s v hg hv
    simp [compute_delay_minutes, hg, hv]
  · intro pt ct s hg hv
    simp [compute_delay_minutes, hg, hv]
  · intro p c dc hg hp hc
    have hp0 : 100000000000 ≤ p := (of_decide_eq_true hp).1
    have hc0 : 100000000000 ≤ c := (of_decide_eq_true hc).1
    have hpt : truthyKey (some p) = true := by
      simp only [truthyKey, ne_eq, bne_iff_ne]
      omega
    have hct : truthyKey (some c) = true := by
      simp only [truthyKey, ne_eq, bne_iff_ne]
      omega
    simp [compute_delay_minutes, hg, hpt, hct, hp, hc]
  · intro pt ct dc hg hfalse
    rcases hfalse with h | h <;> simp [compute_delay_minutes, hg, h]

theorem delay_priority_amended_witness :
    compute_delay_minutes none none (some "7") = .ok (some 7) ∧
    compute_delay_minutes (some 1) (some 2) (some "--8") = .error () ∧
    compute_delay_minutes (some 202509021000) (some 202509021100) (some "x")
      = .ok (some 60) ∧
    compute_delay_minutes none (some 202509021012) none = .ok none :=
  ⟨delay_priority_amended.1 none none "7" 7 (by decide) (by decide),
   delay_priority_amended.2.1 (some 1) (some 2) "--8" (by decide) (by decide),
   (delay_priority_amended.2.2.1 202509021000 202509021100 (some "x")
      (by decide) (by decide) (by decide)).trans rfl,
   delay_priority_amended.2.2.2.1 none (some 202509021012) none (by decide)
     (Or.inl rfl)⟩

/-! ## Station Identity Resolver, name path (ingest_timetables.py) -/

/-- Python whitespace for str.strip() and the \s class (ASCII range). -/
def pyIsSpace (c : Char) : Bool :=
  c = ' ' || c = '\t' || c = '\n' || c = '\x0b' || c = '\x0c' || c = '\r'

/-- Python str.strip(): remove leading and trailing whitespace. -/
def pyStrip (s : String) : String :=
  ⟨((s.toList.dropWhile pyIsSpace).reverse.dropWhile pyIsSpace).reverse⟩

/-- ASCII lower-casing of one character, as str.lower() acts on ASCII. -/
def lowerChar (c : Char) : Char :=
  if 65 ≤ c.toNat ∧ c.toNat ≤ 90 then Char.ofNat (c.toNat + 32) else c

/-- re.sub(r"\s+", " ", x): replace each maximal whitespace run by one " ". -/
def collapseWs : List Char → List Char
  | [] => []
  | [c] => [if pyIsSpace c then ' ' else c]
  | c :: d :: rest =>
    if pyIsSpace c && pyIsSpace d then collapseWs (d :: rest)
    else (if pyIsSpace c then ' ' else c) :: collapseWs (d :: rest)

/-- norm_name of ingest_timetables.py (lines 35-39): strip, lower-case,
underscores to spaces, whitespace runs collapsed to single spaces. -/
def norm_name (x : String) : String :=
  ⟨collapseWs (((pyStrip x).toList.map lowerChar).map (fun c => if c = '_' then ' ' else c))⟩

/-- Python s.startswith(t). -/
def pyStartsWith (s t : String) : Bool := t.toList.isPrefixOf s.toList

/-- Python s[n:]. -/
def strDropChars (s : String) (n : Nat) : String := ⟨s.toList.drop n⟩

/-- One station of station_data.json: a display name and its evaNumbers
entries (number plus the optional isMain marker). -/
structure EvaNumber where
  number : Nat
  isMain : Option Bool
deriving DecidableEq

structure CatalogStation where
  name : String
  evaNumbers : List EvaNumber
deriving DecidableEq

/-- The eva picked by build_station_maps: the first evaNumbers entry with
isMain exactly True, else the first entry. -/
def mainEva : List EvaNumber → Nat
  | [] => 0
  | e :: es =>
    match (e :: es).find? (fun x => x.isMain == some true) with
    | some x => x.number
    | none => e.number

/-- One iteration of the alias-building loop of build_station_maps
(ingest_timetables.py lines 86-108): an entry with no evaNumbers is skipped;
otherwise the normalized name is registered, plus a "berlin "-stripped alias
when the normalized name starts with "berlin " and a "berlin "-prefixed alias
when it does not start with "berlin" (no trailing space).  Later assignments
overwrite earlier ones, as Python dict assignment does. -/
def registerStation (m : String → Option Nat) (s : CatalogStation) : String → Option Nat :=
  if s.evaNumbers.isEmpty then m
  else
    let eva := mainEva s.evaNumbers
    let n := norm_name s.name
    let m1 : String → Option Nat := fun x => if x = n then some eva else m x
    let m2 : String → Option Nat :=
      if pyStartsWith n "berlin " then
        fun x => if x = strDropChars n 7 then some eva else m1 x
      else m1
    if pyStartsWith n "berlin" then m2
    else fun x => if x = "berlin " ++ n then some eva else m2 x

/-- The name_to_eva dict built from the catalog, as a lookup function. -/
def build_name_to_eva (catalog : List CatalogStation) : String → Option Nat :=
  catalog.foldl registerStation (fun _ => none)

/-- The aliases registerStation registers for one catalog name, in
registration order. -/
def stationAliases (name : String) : List String :=
  let n := norm_name name
  [n] ++ (if pyStartsWith n "berlin " then [strDropChars n 7] else [])
    ++ (if pyStartsWith n "berlin" then [] else ["berlin " ++ n])

/-- Registering a list of aliases for one eva, later entries shadowing. -/
def registerAliases (eva : Nat) (m : String → Option Nat) (L : List String) :
    String → Option Nat :=
  L.foldl (fun m' x => fun y => if y = x then some eva else m' y) m

theorem registerStation_eq (m : String → Option Nat) (s : CatalogStation)
    (hne : s.evaNumbers ≠ []) :
    registerStation m s
      = registerAliases (mainEva s.evaNumbers) m (stationAliases s.name) := by
  have hEmpty : s.evaNumbers.isEmpty = false := by
    cases h : s.evaNumbers with
    | nil => exact absurd h hne
    | cons x xs => rfl
  by_cases hb7 : pyStartsWith (norm_name s.name) "berlin " <;>
    by_cases hb : pyStartsWith (norm_name s.name) "berlin" <;>
      simp only [registerStation, registerAliases, stationAliases, hEmpty, hb7, hb,
        Bool.false_eq_true, if_false, if_true, List.append_nil, List.nil_append,
        List.cons_append, List.foldl_cons, List.foldl_nil]

theorem registerAliases_preserve (eva : Nat) (m : String → Option Nat)
    (L : List String) (a : String) (h : m a = some eva) :
    registerAliases eva m L a = some eva := by
  induction L generalizing m with
  | nil => exact h
  | cons x L ih => exact ih _ (by by_cases hxa : a = x <;> simp [hxa, h])

theorem registerAliases_mem (eva : Nat) (m : String → Option Nat)
    (L : List String) (a : String) (ha : a ∈ L) :
    registerAliases eva m L a = some eva := by
  induction L generalizing m with
  | nil => cases ha
  | cons x L ih =>
    rcases List.mem_cons.mp ha with rfl | ha'
    · exact registerAliases_preserve eva _ L a (by simp)
    · exact ih _ ha'

theorem registerAliases_skip (eva : Nat) (m : String → Option Nat)
    (L : List String) (a : String) (ha : a ∉ L) :
    registerAliases eva m L a = m a := by
  induction L generalizing m with
  | nil => rfl
  | cons x L ih =>
    have hax : a ≠ x := fun h => ha (h ▸ List.mem_cons_self x L)
    rw [show registerAliases eva m (x :: L)
          = registerAliases eva (fun y => if y = x then some eva else m y) L from rfl,
      ih _ (fun h => ha (List.mem_cons_of_mem x h))]
    simp [hax]

theorem buildFold_skip (L : List CatalogStation) (m : String → Option Nat) (a : String)
    (h : ∀ t ∈ L, t.evaNumbers = [] ∨ a ∉ stationAliases t.name) :
    L.foldl registerStation m a = m a := by
  induction L generalizing m with
  | nil => rfl
  | cons s L ih =>
    rw [List.foldl_cons, ih _ (fun t ht => h t (List.mem_cons_of_mem s ht))]
    by_cases hne : s.evaNumbers = []
    · simp [registerStation, hne]
    · rcases h s (List.mem_cons_self s L) with he | hna
      · exact absurd he hne
      · rw [registerStation_eq m s hne]
        exact registerAliases_skip _ _ _ _ hna

/-- C5 counterexample: for the catalog name "Berliner Tor" the normalized form
does not start with the prefix "berlin " (with its trailing space), so the
claim requires the "berlin "-prefixed alias "berlin berliner tor" to be
registered; the code's guard tests startswith("berlin") without the space and
registers nothing for it. -/
theorem station_alias_counterexample :
    build_name_to_eva [⟨"Berliner Tor", [⟨8002, some true⟩]⟩] "berlin berliner tor" = none ∧
    pyStartsWith (norm_name "Berliner Tor") "berlin " = false := by
  exact ⟨by decide, by decide⟩

/-- C5 (amended): for every catalog entry with at least one eva number, the
alias table maps the normalized name to the entry's main eva, plus the
"berlin "-stripped form when the normalized name starts with "berlin ", plus
the "berlin "-prefixed form when it does not start with "berlin" — the code
tests the prefixed-alias condition without the trailing space, so names such
as "Berliner Tor" get no prefixed alias — provided no later catalog entry
registers the same alias.  The claim's "Berlin Hauptbahnhof" instance holds:
the labels "berlin hauptbahnhof", "Berlin_Hauptbahnhof" and "hauptbahnhof"
all resolve to its station. -/
theorem station_alias_registration :
    (∀ (pre post : List CatalogStation) (s : CatalogStation) (a : String),
      s.evaNumbers ≠ [] → a ∈ stationAliases s.name →
      (∀ t ∈ post, t.evaNumbers = [] ∨ a ∉ stationAliases t.name) →
      build_name_to_eva (pre ++ s :: post) a = some (mainEva s.evaNumbers)) ∧
    (∀ name : String,
      norm_name name ∈ stationAliases name ∧
      (pyStartsWith (norm_name name) "berlin " = true →
        strDropChars (norm_name name) 7 ∈ stationAliases name) ∧
      (pyStartsWith (norm_name name) "berlin" = false →
        ("berlin " ++ norm_name name) ∈ stationAliases name)) ∧
    (build_name_to_eva [⟨"Berlin Hauptbahnhof", [⟨8011160, some true⟩]⟩]
        (norm_name "berlin hauptbahnhof") = some 8011160 ∧
      build_name_to_eva [⟨"Berlin Hauptbahnhof", [⟨8011160, some true⟩]⟩]
        (norm_name "Berlin_Hauptbahnhof") = some 8011160 ∧
      build_name_to_eva [⟨"Berlin Hauptbahnhof", [⟨8011160, some true⟩]⟩]
        (norm_name "hauptbahnhof") = some 8011160) := by
  refine ⟨?_, ?_, by decide, by decide, by decide⟩
  · intro pre post s a hne ha hpost
    rw [build_name_to_eva, List.foldl_append, List.foldl_cons,
      buildFold_skip post _ a hpost, registerStation_eq _ s hne]
    exact registerAliases_mem _ _ _ a ha
  · intro name
    refine ⟨by simp [stationAliases], fun h => ?_, fun h => ?_⟩
    · simp [stationAliases, h]
    · simp [stationAliases, h]

theorem station_alias_registration_witness :
    build_name_to_eva [⟨"Berlin Hauptbahnhof", [⟨8011160, some true⟩]⟩]
        "hauptbahnhof" = some 8011160 :=
  (station_alias_registration.1 [] []
      ⟨"Berlin Hauptbahnhof", [⟨8011160, some true⟩]⟩ "hauptbahnhof"
      (by decide) (by decide) (fun t ht => absurd ht (List.not_mem_nil t))).trans rfl

/-! ## Per-file ingestion loops (ingest_changes / ingest_timetables)

A file is modelled post-XML-extraction: `none` stands for a file on which the
parser raised (the only step the loops wrap in try/except).  ValueErrors
raised later in a loop body are not caught and abort the run; they surface as
`.error` of the Except layer. -/

/-- parse_yymmddhhmm (both pipelines): strip, require exactly 10 digits, then
build datetime(2000+yy, mm, dd, hh, mi); `.error ()` is the ValueError raised
on a failing length/digit check or an invalid calendar field.  The value
returned is the %Y%m%d%H%M time key of the parsed timestamp, which is what
time_key(parse_yymmddhhmm(s)) recomposes via strftime. -/
def parse_yymmddhhmm_key (s : String) : Except Unit Nat :=
  let t := pyStrip s
  if t.toList.length = 10 && pyIsDigit t then
    let n := digitsToNat t.toList
    let yy := n / 100000000
    let mm := n / 1000000 % 100
    let dd := n / 10000 % 100
    let hh := n / 100 % 100
    let mi := n % 100
    if 1 ≤ mm && mm ≤ 12 && 1 ≤ dd && dd ≤ daysInMonth (2000 + yy) mm
        && hh ≤ 23 && mi ≤ 59 then
      .ok ((2000 + yy) * 100000000 + mm * 1000000 + dd * 10000 + hh * 100 + mi)
    else .error ()
  else .error ()

/-- safe_timekey_from_attr of ingest_changes.py (lines 42-45): a truthy
10-digit attribute string is parsed into a time key, anything else yields
None.  (The re-parse inside parse_yymmddhhmm cannot fail on a guard-passing
string, but an invalid calendar field still raises.) -/
def safe_timekey_from_attr (v : Option String) : Except Unit (Option Nat) :=
  match v with
  | some s =>
    if !s.toList.isEmpty && pyIsDigit s && s.toList.length = 10 then
      (parse_yymmddhhmm_key s).map (fun k => some k)
    else .ok none
  | none => .ok none

/-- The ar/dp attributes the change path consumes. -/
structure ChangeEvAttrs where
  pt : Option String
  ct : Option String
  cs : Option String
  cp : Option String
  pp : Option String
  l : Option String
  ppth : Option String
  dc : Option String
deriving DecidableEq

structure ChangeStop where
  id : Option String
  tl : List (String × String)
  ar : Option ChangeEvAttrs
  dp : Option ChangeEvAttrs
deriving DecidableEq

/-- A parsed change file: the root eva attribute and the s elements. -/
structure ChangeDoc where
  eva : Option String
  stops : List ChangeStop
deriving DecidableEq

/-- One ar/dp event of the change loop body (ingest_changes.py 222-261):
resolve both time keys, compute the delay, and emit the fact record. -/
def buildChangeEvent (snap_key station_key train_key : Nat) (stop_id : Option String)
    (etype : String) (a : ChangeEvAttrs) : Except Unit (NatKey × FactRow) := do
  let pt ← safe_timekey_from_attr a.pt
  let ct ← safe_timekey_from_attr a.ct
  let delay ← compute_delay_minutes pt ct a.dc
  .ok (⟨snap_key, station_key, stop_id, etype⟩,
    { train_key := train_key
      planned_time_key := pt
      changed_time_key := ct
      event_status := a.cs
      planned_platform := a.pp
      changed_platform := a.cp
      line := a.l
      planned_path := a.ppth
      delay_minutes := delay
      is_cancelled := a.cs == some "c" })

def processChangeStop (tko : TrainTuple → Nat) (snap_key station_key : Nat)
    (s : ChangeStop) : Except Unit (List (NatKey × FactRow)) := do
  let train_key := changeTrainKey tko s.tl
  let arRows : List (NatKey × FactRow) ← match s.ar with
    | none => pure []
    | some a =>
      (buildChangeEvent snap_key station_key train_key s.id "A" a).map (fun x => [x])
  let dpRows : List (NatKey × FactRow) ← match s.dp with
    | none => pure []
    | some a =>
      (buildChangeEvent snap_key station_key train_key s.id "D" a).map (fun x => [x])
  .ok (arRows ++ dpRows)

/-- Counters and accumulated output of the ingest_changes file loop. -/
structure CState where
  xml_count : Nat
  bad_xml : Nat
  skipped_station : Nat
  rows : List (NatKey × FactRow)
deriving DecidableEq

/-- One file of the ingest_changes loop (lines 197-261): count it; a parse
failure counts bad_xml and skips the file; a missing or non-numeric root eva,
or an eva absent from dim_station, counts skipped_station and skips the file;
otherwise the stops produce fact records. -/
def processChangeFile (tko : TrainTuple → Nat) (stationKeyByEva : Nat → Option Nat)
    (snap_key : Nat) (st : CState) (f : Option ChangeDoc) : Except Unit CState :=
  let st1 := { st with xml_count := st.xml_count + 1 }
  match f with
  | none => .ok { st1 with bad_xml := st1.bad_xml + 1 }
  | some doc =>
    match doc.eva with
    | none => .ok { st1 with skipped_station := st1.skipped_station + 1 }
    | some evaStr =>
      if !pyTruthy (some evaStr) || !pyIsDigit evaStr then
        .ok { st1 with skipped_station := st1.skipped_station + 1 }
      else
        match stationKeyByEva (digitsToNat evaStr.toList) with
        | none => .ok { st1 with skipped_station := st1.skipped_station + 1 }
        | some station_key =>
          (doc.stops.mapM (processChangeStop tko snap_key station_key)).map
            (fun rss => { st1 with rows := st1.rows ++ rss.flatten })

def ingestChangeFiles (tko : TrainTuple → Nat) (stationKeyByEva : Nat → Option Nat)
    (snap_key : Nat) : CState → List (Option ChangeDoc) → Except Unit CState
  | st, [] => .ok st
  | st, f :: fs =>
    match processChangeFile tko stationKeyByEva snap_key st f with
    | .error e => .error e
    | .ok st' => ingestChangeFiles tko stationKeyByEva snap_key st' fs

/-- The ar/dp attributes the planned path consumes. -/
structure PlannedEvAttrs where
  pt : Option String
  pp : Option String
  l : Option String
  ppth : Option String
deriving DecidableEq

structure PlannedStop where
  id : Option String
  tl : List (String × String)
  ar : Option PlannedEvAttrs
  dp : Option PlannedEvAttrs
deriving DecidableEq

/-- A parsed planned-timetable file: the root station attribute and the s
elements. -/
structure PlannedDoc where
  station : Option String
  stops : List PlannedStop
deriving DecidableEq

/-- Python s.lower() on ASCII. -/
def strLower (s : String) : String := ⟨s.toList.map lowerChar⟩

/-- Python s.endswith(t). -/
def strEndsWith (s t : String) : Bool := t.toList.isSuffixOf s.toList

/-- re.sub(r"_timetable\.xml$", "", base, flags=re.IGNORECASE). -/
def strip_timetable_suffix (b : String) : String :=
  if strEndsWith (strLower b) "_timetable.xml" then ⟨b.toList.take (b.toList.length - 14)⟩
  else b

/-- Python s.replace("_", " "). -/
def replaceUnderscores (s : String) : String :=
  ⟨s.toList.map (fun c => if c = '_' then ' ' else c)⟩

/-- station_from_root_or_filename of ingest_timetables.py (lines 42-48): the
root station attribute when truthy, otherwise the file name with the
case-insensitive "_timetable.xml" suffix stripped and underscores replaced by
spaces (the loop passes the bare file name, so basename is the identity). -/
def station_from_root_or_filename (station : Option String) (fn : String) : String :=
  match station with
  | some s =>
    if !s.toList.isEmpty then s else replaceUnderscores (strip_timetable_suffix fn)
  | none => replaceUnderscores (strip_timetable_suffix fn)

/-- One ar/dp event of the planned loop body (ingest_timetables.py 245-263):
a truthy pt attribute is parsed into the planned time key (raising on a
malformed value), and the planned-side payload is emitted. -/
def buildPlannedEvent (snap_key station_key train_key : Nat) (stop_id : Option String)
    (etype : String) (a : PlannedEvAttrs) : Except Unit (NatKey × PlannedPayload) := do
  let pt_key ← match a.pt with
    | some s =>
      if !s.toList.isEmpty then (parse_yymmddhhmm_key s).map (fun k => some k)
      else pure (none : Option Nat)
    | none => pure none
  .ok (⟨snap_key, station_key, stop_id, etype⟩,
    { train_key := train_key
      planned_time_key := pt_key
      planned_platform := a.pp
      line := a.l
      planned_path := a.ppth })

def processPlannedStop (tko : TrainTuple → Nat) (snap_key station_key : Nat)
    (s : PlannedStop) : Except Unit (List (NatKey × PlannedPayload)) := do
  let train_key := plannedTrainKey tko s.tl
  let arRows : List (NatKey × PlannedPayload) ← match s.ar with
    | none => pure []
    | some a =>
      (buildPlannedEvent snap_key station_key train_key s.id "A" a).map (fun x => [x])
  let dpRows : List (NatKey × PlannedPayload) ← match s.dp with
    | none => pure []
    | some a =>
      (buildPlannedEvent snap_key station_key train_key s.id "D" a).map (fun x => [x])
  .ok (arRows ++ dpRows)

/-- Counters and accumulated output of the ingest_timetables file loop. -/
structure PState where
  xml_count : Nat
  skipped_station : Nat
  rows : List (NatKey × PlannedPayload)
deriving DecidableEq

/-- One file of the ingest_timetables loop (lines 220-263): count it; a parse
failure just skips the file (no dedicated counter); an unresolvable station
name, or an eva absent from dim_station, counts skipped_station and skips the
file; otherwise the stops produce planned records. -/
def processPlannedFile (tko : TrainTuple → Nat) (nameToEva : String → Option Nat)
    (stationKeyByEva : Nat → Option Nat) (snap_key : Nat) (st : PState)
    (f : String × Option PlannedDoc) : Except Unit PState :=
  let st1 := { st with xml_count := st.xml_count + 1 }
  match f.2 with
  | none => .ok st1
  | some doc =>
    let station_name := station_from_root_or_filename doc.station f.1
    match nameToEva (norm_name station_name) with
    | none => .ok { st1 with skipped_station := st1.skipped_station + 1 }
    | some eva =>
      match stationKeyByEva eva with
      | none => .ok { st1 with skipped_station := st1.skipped_station + 1 }
      | some station_key =>
        (doc.stops.mapM (processPlannedStop tko snap_key station_key)).map
          (fun rss => { st1 with rows := st1.rows ++ rss.flatten })

def ingestPlannedFiles (tko : TrainTuple → Nat) (nameToEva : String → Option Nat)
    (stationKeyByEva : Nat → Option Nat) (snap_key : Nat) :
    PState → List (String × Option PlannedDoc) → Except Unit PState
  | st, [] => .ok st
  | st, f :: fs =>
    match processPlannedFile tko nameToEva stationKeyByEva snap_key st f with
    | .error e => .error e
    | .ok st' => ingestPlannedFiles tko nameToEva stationKeyByEva snap_key st' fs

/-- The change-path station reference of a parsed file cannot be resolved: no
root eva attribute, a falsy or non-numeric one, or an eva absent from
dim_station. -/
def changeStationUnresolvable (stationKeyByEva : Nat → Option Nat) (doc : ChangeDoc) :
    Bool :=
  match doc.eva with
  | none => true
  | some s =>
    (!pyTruthy (some s) || !pyIsDigit s) || (stationKeyByEva (digitsToNat s.toList)).isNone

/-- The planned-path station reference of a parsed file cannot be resolved:
its normalized label is not in the alias table, or its eva is absent from
dim_station. -/
def plannedStationUnresolvable (nameToEva : String → Option Nat)
    (stationKeyByEva : Nat → Option Nat) (doc : PlannedDoc) (fn : String) : Bool :=
  match nameToEva (norm_name (station_from_root_or_filename doc.station fn)) with
  | none => true
  | some eva => (stationKeyByEva eva).isNone

/-- C7: in both ingestion paths, a parsed station file whose station reference
cannot be resolved against the catalog produces no fact rows, increments the
skipped-station counter by exactly one, leaves every other counter unchanged,
and the run continues with the next file instead of aborting. -/
theorem unresolvable_station_skip :
    (∀ (tko : TrainTuple → Nat) (sk : Nat → Option Nat) (snap : Nat) (st : CState)
        (doc : ChangeDoc) (fs : List (Option ChangeDoc)),
      changeStationUnresolvable sk doc = true →
      processChangeFile tko sk snap st (some doc)
          = .ok { st with xml_count := st.xml_count + 1,
                          skipped_station := st.skipped_station + 1 } ∧
      ingestChangeFiles tko sk snap st (some doc :: fs)
          = ingestChangeFiles tko sk snap
              { st with xml_count := st.xml_count + 1,
                        skipped_station := st.skipped_station + 1 } fs) ∧
    (∀ (tko : TrainTuple → Nat) (n2e : String → Option Nat) (sk : Nat → Option Nat)
        (snap : Nat) (st : PState) (fn : String) (doc : PlannedDoc)
        (fs : List (String × Option PlannedDoc)),
      plannedStationUnresolvable n2e sk doc fn = true →
      processPlannedFile tko n2e sk snap st (fn, some doc)
          = .ok { st with xml_count := st.xml_count + 1,
                          skipped_station := st.skipped_station + 1 } ∧
      ingestPlannedFiles tko n2e sk snap st ((fn, some doc) :: fs)
          = ingestPlannedFiles tko n2e sk snap
              { st with xml_count := st.xml_count + 1,
                        skipped_station := st.skipped_station + 1 } fs) := by
  constructor
  · intro tko sk snap st doc fs h
    have hp : processChangeFile tko sk snap st (some doc)
        = .ok { st with xml_count := st.xml_count + 1,
                        skipped_station := st.skipped_station + 1 } := by
      cases hdoc : doc.eva with
      | none => simp [processChangeFile, hdoc]
      | some s =>
        rw [changeStationUnresolvable, hdoc] at h
        by_cases hg : (!pyTruthy (some s) || !pyIsDigit s) = true
        · simp [processChangeFile, hdoc, hg]
        · have h2 : sk (digitsToNat s.toList) = none := by
            rcases Bool.or_eq_true_iff.mp h with h1 | h2
            · exact absurd h1 hg
            · exact Option.isNone_iff_eq_none.mp h2
          have h2' : sk (digitsToNat s.data) = none := h2
          simp only [Bool.not_eq_true] at hg
          simp [processChangeFile, hdoc, hg, h2, h2']
    exact ⟨hp, by simp [ingestChangeFiles, hp]⟩
  · intro tko n2e sk snap st fn doc fs h
    have hp : processPlannedFile tko n2e sk snap st (fn, some doc)
        = .ok { st with xml_count := st.xml_count + 1,
                        skipped_station := st.skipped_station + 1 } := by
      rw [plannedStationUnresolvable] at h
      cases hres : n2e (norm_name (station_from_root_or_filename doc.station fn)) with
      | none => simp [processPlannedFile, hres]
      | some eva =>
        rw [hres] at h
        have h2 : sk eva = none := Option.isNone_iff_eq_none.mp h
        simp [processPlannedFile, hres, h2]
    exact ⟨hp, by simp [ingestPlannedFiles, hp]⟩

theorem unresolvable_station_skip_witness :
    processChangeFile (fun _ => 0) (fun _ => none) 202509021615 ⟨0, 0, 0, []⟩
        (some ⟨some "8011160", []⟩)
      = .ok ⟨1, 0, 1, []⟩ ∧
    processPlannedFile (fun _ => 0) (fun _ => none) (fun _ => none) 202509021200
        ⟨0, 0, []⟩ ("x_timetable.xml", some ⟨some "Somewhere", []⟩)
      = .ok ⟨1, 1, []⟩ :=
  ⟨(unresolvable_station_skip.1 (fun _ => 0) (fun _ => none) 202509021615
      ⟨0, 0, 0, []⟩ ⟨some "8011160", []⟩ [] (by decide)).1,
   (unresolvable_station_skip.2 (fun _ => 0) (fun _ => none) (fun _ => none)
      202509021200 ⟨0, 0, []⟩ "x_timetable.xml" ⟨some "Somewhere", []⟩ []
      (by decide)).1⟩

/-- C8 counterexample: in the planned path a parse failure increments no
observability counter recording it — processing a malformed file yields
exactly the same state as processing a well-formed, fully resolvable file with
no stops; only the unconditional files-seen count advances, skipped_station
and the produced rows are untouched, and no parse-failure counter exists. -/
theorem parse_failure_counter_counterexample :
    processPlannedFile (fun _ => 0) (fun s => if s = "a" then some 1 else none)
        (fun n => if n = 1 then some 5 else none) 0
        ⟨0, 0, []⟩ ("a_timetable.xml", none)
      = .ok ⟨1, 0, []⟩ ∧
    processPlannedFile (fun _ => 0) (fun s => if s = "a" then some 1 else none)
        (fun n => if n = 1 then some 5 else none) 0
        ⟨0, 0, []⟩ ("a_timetable.xml", some ⟨some "a", []⟩)
      = .ok ⟨1, 0, []⟩ :=
  ⟨rfl, rfl⟩

/-- C8 (amended): a source file that fails to parse is dropped and processing
continues with the next file without aborting, in both paths; the change path
increments its bad_xml counter, while the planned path increments no
parse-failure counter at all — only its unconditional files-seen count
advances. -/
theorem parse_failure_skip_amended :
    (∀ (tko : TrainTuple → Nat) (sk : Nat → Option Nat) (snap : Nat) (st : CState)
        (fs : List (Option ChangeDoc)),
      processChangeFile tko sk snap st none
          = .ok { st with xml_count := st.xml_count + 1, bad_xml := st.bad_xml + 1 } ∧
      ingestChangeFiles tko sk snap st (none :: fs)
          = ingestChangeFiles tko sk snap
              { st with xml_count := st.xml_count + 1, bad_xml := st.bad_xml + 1 } fs) ∧
    (∀ (tko : TrainTuple → Nat) (n2e : String → Option Nat) (sk : Nat → Option Nat)
        (snap : Nat) (st : PState) (fn : String)
        (fs : List (String × Option PlannedDoc)),
      processPlannedFile tko n2e sk snap st (fn, none)
          = .ok { st with xml_count := st.xml_count + 1 } ∧
      ingestPlannedFiles tko n2e sk snap st ((fn, none) :: fs)
          = ingestPlannedFiles tko n2e sk snap
              { st with xml_count := st.xml_count + 1 } fs) := by
  constructor
  · intro tko sk snap st fs
    exact ⟨rfl, by simp [ingestChangeFiles, processChangeFile]⟩
  · intro tko n2e sk snap st fn fs
    exact ⟨rfl, by simp [ingestPlannedFiles, processPlannedFile]⟩

end ETL
